import Mathlib

/-!
Shallow embedding of `TruthSerum.py` (class `TruthSerum`): a fact-checking
contract that normalizes an input URL, extracts candidate links from HTML,
validates an LLM-produced JSON verdict against a strict schema, and stores
the canonical re-serialization.  External collaborators (page fetch, LLM
consensus call) are treated as oracle inputs.  Python exceptions are
modelled with `Except`; `ValueError` carries its message, and a `TypeError`
raised by a Python primitive (`in` / subscript on an unsupported type) is a
separate constructor.
-/

namespace TruthSerum

/-- Python exceptions that the validated code can raise: `ValueError msg`
(the validation / guardrail errors raised explicitly by the source) and
`TypeError` (raised by Python itself, e.g. `"k" in 5`). -/
inductive PyErr where
  | valueError (msg : String) : PyErr
  | typeError : PyErr
deriving DecidableEq

/-- Result of `json.loads`: the closed structural JSON value type.  Numbers
are kept as their source token (the validator never does arithmetic on
them; the concrete inputs used below only contain integer tokens, for which
`json.dumps` re-prints the token itself). -/
inductive Json where
  | null : Json
  | bool (b : Bool) : Json
  | num (tok : String) : Json
  | str (s : String) : Json
  | arr (elems : List Json) : Json
  | obj (kvs : List (String × Json)) : Json

/-- Is a JSON value a string?  (Mirrors Python `isinstance(x, str)`.) -/
def Json.isStr : Json → Bool
  | .str _ => true
  | _ => false

/-- Whitespace characters removed by Python `str.strip()` (ASCII subset;
the inputs considered here are ASCII). -/
def pySpace (c : Char) : Bool :=
  c = ' ' || c = '\t' || c = '\n' || c = '\r' || c = Char.ofNat 11 || c = Char.ofNat 12

/-- Python `str.strip()`: remove leading and trailing whitespace. -/
def pyStrip (s : String) : String :=
  ⟨((s.data.dropWhile pySpace).reverse.dropWhile pySpace).reverse⟩

/-- Python `str.lower()` (ASCII case mapping; the guardrail needles are
ASCII). -/
def pyLower (s : String) : String :=
  ⟨s.data.map Char.toLower⟩

/-- Python `needle in hay` on strings, at the character-list level:
scan every suffix for a prefix match. -/
def subListIn (n : List Char) : List Char → Bool
  | [] => n.isPrefixOf []
  | c :: t => n.isPrefixOf (c :: t) || subListIn n t

/-- Python `needle in hay` substring test on strings. -/
def pyContains (needle hay : String) : Bool :=
  subListIn needle.data hay.data

/-- Python `s.startswith(p)`. -/
def pyStartsWith (p s : String) : Bool :=
  p.data.isPrefixOf s.data

/-- The left-brace character (code 123). -/
def lbrace : Char := Char.ofNat 123

/-- The right-brace character (code 125). -/
def rbrace : Char := Char.ofNat 125

/-- The double-quote character. -/
def dquote : Char := Char.ofNat 34

/-- The single-quote character. -/
def squote : Char := Char.ofNat 39

/-- One-character string holding a single quote (used to build concrete
HTML inputs). -/
def sq : String := ⟨[squote]⟩

/-! ### `json.dumps(obj, ensure_ascii=False, separators=(",", ":"))` -/

/-- Escaping of one character inside a JSON string as performed by
`json.dumps` with `ensure_ascii=False`: only the quote, the backslash and
control characters are escaped; everything else is emitted literally. -/
def escChar (c : Char) : List Char :=
  if c = dquote then ['\\', dquote]
  else if c = '\\' then ['\\', '\\']
  else if c = '\n' then ['\\', 'n']
  else if c = '\t' then ['\\', 't']
  else if c = '\r' then ['\\', 'r']
  else if c = Char.ofNat 8 then ['\\', 'b']
  else if c = Char.ofNat 12 then ['\\', 'f']
  else if c.toNat < 32 then
    ['\\', 'u', '0', '0',
     (if c.toNat / 16 < 10 then Char.ofNat (48 + c.toNat / 16) else Char.ofNat (87 + c.toNat / 16)),
     (if c.toNat % 16 < 10 then Char.ofNat (48 + c.toNat % 16) else Char.ofNat (87 + c.toNat % 16))]
  else [c]

/-- A JSON string literal as emitted by `json.dumps` (quote, escaped
content, quote). -/
def escStr (s : String) : String :=
  ⟨(dquote :: s.data.flatMap escChar) ++ [dquote]⟩

mutual

/-- `json.dumps(obj, ensure_ascii=False, separators=(",", ":"))`: minified
serialization, keys in dictionary (insertion) order, non-ASCII preserved. -/
def dumps : Json → String
  | .null => "null"
  | .bool true => "true"
  | .bool false => "false"
  | .num tok => tok
  | .str s => escStr s
  | .arr es => ⟨'[' :: (dumpsList es).data ++ [']']⟩
  | .obj kvs => ⟨lbrace :: (dumpsMembers kvs).data ++ [rbrace]⟩

/-- Comma-joined serialization of array elements. -/
def dumpsList : List Json → String
  | [] => ""
  | [j] => dumps j
  | j :: rest => dumps j ++ "," ++ dumpsList rest

/-- Comma-joined serialization of object members, `key:value` with the
`":"` key separator. -/
def dumpsMembers : List (String × Json) → String
  | [] => ""
  | [(k, v)] => escStr k ++ ":" ++ dumps v
  | (k, v) :: rest => escStr k ++ ":" ++ dumps v ++ "," ++ dumpsMembers rest

end

/-! ### `json.loads`: recursive-descent model of the JSON parser -/

/-- JSON insignificant whitespace. -/
def jsonWs (c : Char) : Bool :=
  c = ' ' || c = '\t' || c = '\n' || c = '\r'

/-- Skip insignificant whitespace. -/
def skipWs : List Char → List Char
  | [] => []
  | c :: t => if jsonWs c then skipWs t else c :: t

/-- Value of one hexadecimal digit. -/
def hexVal (c : Char) : Option Nat :=
  if '0' ≤ c ∧ c ≤ '9' then some (c.toNat - 48)
  else if 'a' ≤ c ∧ c ≤ 'f' then some (c.toNat - 87)
  else if 'A' ≤ c ∧ c ≤ 'F' then some (c.toNat - 55)
  else none

/-- Parse the body of a JSON string after the opening quote, handling the
standard escapes; returns the decoded characters and the input after the
closing quote.  Raw control characters are rejected (strict mode), and
`\\u` escapes must denote a scalar value (surrogates are rejected, a spot
where Python is laxer; no input below uses surrogates). -/
def parseStrGo : Nat → List Char → Option (List Char × List Char)
  | 0, _ => none
  | _ + 1, [] => none
  | fuel + 1, c :: t =>
    if c = dquote then some ([], t)
    else if c = '\\' then
      match t with
      | [] => none
      | e :: t2 =>
        if e = dquote then
          match parseStrGo fuel t2 with
          | some (cs, r) => some (dquote :: cs, r)
          | none => none
        else if e = '\\' then
          match parseStrGo fuel t2 with
          | some (cs, r) => some ('\\' :: cs, r)
          | none => none
        else if e = '/' then
          match parseStrGo fuel t2 with
          | some (cs, r) => some ('/' :: cs, r)
          | none => none
        else if e = 'b' then
          match parseStrGo fuel t2 with
          | some (cs, r) => some (Char.ofNat 8 :: cs, r)
          | none => none
        else if e = 'f' then
          match parseStrGo fuel t2 with
          | some (cs, r) => some (Char.ofNat 12 :: cs, r)
          | none => none
        else if e = 'n' then
          match parseStrGo fuel t2 with
          | some (cs, r) => some ('\n' :: cs, r)
          | none => none
        else if e = 'r' then
          match parseStrGo fuel t2 with
          | some (cs, r) => some ('\r' :: cs, r)
          | none => none
        else if e = 't' then
          match parseStrGo fuel t2 with
          | some (cs, r) => some ('\t' :: cs, r)
          | none => none
        else if e = 'u' then
          match t2 with
          | h1 :: h2 :: h3 :: h4 :: t3 =>
            match hexVal h1, hexVal h2, hexVal h3, hexVal h4 with
            | some a, some b, some c', some d =>
              let code := ((a * 16 + b) * 16 + c') * 16 + d
              if 0xd800 ≤ code ∧ code ≤ 0xdfff then none
              else
                match parseStrGo fuel t3 with
                | some (cs, r) => some (Char.ofNat code :: cs, r)
                | none => none
            | _, _, _, _ => none
          | _ => none
        else none
    else if c.toNat < 32 then none
    else
      match parseStrGo fuel t with
      | some (cs, r) => some (c :: cs, r)
      | none => none

/-- Parse a JSON number token (grammar `-? int frac? exp?` with the
no-leading-zero rule); returns the token characters and the rest. -/
def parseNumber (cs : List Char) : Option (List Char × List Char) :=
  let (sign, cs1) :=
    match cs with
    | '-' :: t => (['-'], t)
    | _ => (([] : List Char), cs)
  match cs1 with
  | c :: t =>
    if c = '0' ∨ (c.isDigit ∧ c ≠ '0') then
      let intPart := if c = '0' then ['0'] else c :: t.takeWhile Char.isDigit
      let afterInt := if c = '0' then t else t.dropWhile Char.isDigit
      let (fracPart, afterFrac) :=
        match afterInt with
        | '.' :: t2 =>
          let ds := t2.takeWhile Char.isDigit
          if ds = [] then (([] : List Char), none)
          else (('.' :: ds), some (t2.dropWhile Char.isDigit))
        | _ => ([], some afterInt)
      match afterFrac with
      | none => none
      | some rest1 =>
        let (expPart, afterExp) :=
          match rest1 with
          | e :: t3 =>
            if e = 'e' ∨ e = 'E' then
              match t3 with
              | s' :: t4 =>
                if s' = '+' ∨ s' = '-' then
                  let ds := t4.takeWhile Char.isDigit
                  if ds = [] then (([] : List Char), none)
                  else (e :: s' :: ds, some (t4.dropWhile Char.isDigit))
                else
                  let ds := t3.takeWhile Char.isDigit
                  if ds = [] then (([] : List Char), none)
                  else (e :: ds, some (t3.dropWhile Char.isDigit))
              | [] => ([], none)
            else ([], some rest1)
          | [] => ([], some rest1)
        match afterExp with
        | none => none
        | some rest2 => some (sign ++ intPart ++ fracPart ++ expPart, rest2)
    else none
  | [] => none

/-- Python `dict` insertion `d[k] = v`: an existing key keeps its position
and gets the new value; a new key is appended. -/
def dictInsert (kvs : List (String × Json)) (k : String) (v : Json) : List (String × Json) :=
  match kvs with
  | [] => [(k, v)]
  | (k', v') :: t => if k' = k then (k', v) :: t else (k', v') :: dictInsert t k v

mutual

/-- Parse one JSON value (after skipping leading whitespace); returns the
value and the remaining input. -/
def parseVal : Nat → List Char → Option (Json × List Char)
  | 0, _ => none
  | fuel + 1, cs =>
    match skipWs cs with
    | [] => none
    | c :: t =>
      if c = lbrace then
        match skipWs t with
        | c2 :: r => if c2 = rbrace then some (.obj [], r) else
            match parseMembers fuel [] t with
            | some (kvs, r') => some (.obj kvs, r')
            | none => none
        | [] => none
      else if c = '[' then
        match skipWs t with
        | ']' :: r => some (.arr [], r)
        | _ =>
          match parseElems fuel [] t with
          | some (es, r') => some (.arr es, r')
          | none => none
      else if c = dquote then
        match parseStrGo (t.length + 1) t with
        | some (content, r) => some (.str ⟨content⟩, r)
        | none => none
      else
        match c :: t with
        | 't' :: 'r' :: 'u' :: 'e' :: r => some (.bool true, r)
        | 'f' :: 'a' :: 'l' :: 's' :: 'e' :: r => some (.bool false, r)
        | 'n' :: 'u' :: 'l' :: 'l' :: r => some (.null, r)
        | cs' =>
          match parseNumber cs' with
          | some (tok, r) => some (.num ⟨tok⟩, r)
          | none => none

/-- Parse the members of a JSON object after the opening brace (at least
one member), accumulating with Python dict-insertion semantics. -/
def parseMembers : Nat → List (String × Json) → List Char → Option (List (String × Json) × List Char)
  | 0, _, _ => none
  | fuel + 1, acc, cs =>
    match skipWs cs with
    | c :: t =>
      if c = dquote then
        match parseStrGo (t.length + 1) t with
        | some (key, r1) =>
          match skipWs r1 with
          | ':' :: r2 =>
            match parseVal fuel r2 with
            | some (v, r3) =>
              let acc' := dictInsert acc ⟨key⟩ v
              match skipWs r3 with
              | ',' :: r4 => parseMembers fuel acc' r4
              | c4 :: r4 => if c4 = rbrace then some (acc', r4) else none
              | [] => none
            | none => none
          | _ => none
        | none => none
      else none
    | [] => none

/-- Parse the elements of a JSON array after the opening bracket (at least
one element). -/
def parseElems : Nat → List Json → List Char → Option (List Json × List Char)
  | 0, _, _ => none
  | fuel + 1, acc, cs =>
    match parseVal fuel cs with
    | some (v, r) =>
      match skipWs r with
      | ',' :: r2 => parseElems fuel (acc ++ [v]) r2
      | ']' :: r2 => some (acc ++ [v], r2)
      | _ => none
    | none => none

end

/-- `json.loads`: parse a complete JSON document (one value surrounded by
optional whitespace).  `none` models the `json.JSONDecodeError` branch. -/
def loads (s : String) : Option Json :=
  match parseVal (2 * s.length + 4) s.data with
  | some (j, rest) => if skipWs rest = [] then some j else none
  | none => none

/-! ### `_normalize_url` and `_basic_url_guardrails` -/

/-- `_normalize_url`: `url.strip()`, kept as-is otherwise. -/
def normalize_url (url : String) : String :=
  pyStrip url

/-- `_basic_url_guardrails`: raise `ValueError` when the URL is shorter
than 8 characters, does not start with `http://` or `https://`, or its
lowercase form contains one of the loopback substrings. -/
def basic_url_guardrails (url : String) : Except PyErr Unit :=
  if url.length < 8 then .error (.valueError "URL too short")
  else if ¬ (pyStartsWith "http://" url || pyStartsWith "https://" url) then
    .error (.valueError "URL must start with http:// or https://")
  else if pyContains "localhost" (pyLower url) || pyContains "127.0.0.1" (pyLower url)
      || pyContains "0.0.0.0" (pyLower url) then
    .error (.valueError "Localhost URLs are not allowed")
  else .ok ()

/-- The URL gate as `verify` runs it: `_normalize_url` followed by
`_basic_url_guardrails`, the normalized URL used from then on. -/
def normalize_and_check (raw : String) : Except PyErr String :=
  match basic_url_guardrails (normalize_url raw) with
  | .error e => .error e
  | .ok () => .ok (normalize_url raw)

/-! ### `_extract_links` -/

/-- Is a character one of the two quote characters of the character class
in the regex `href=[quote](...)` used by `_extract_links`? -/
def isQuoteChar (c : Char) : Bool :=
  c = squote || c = dquote

/-- Do the first five characters spell `href=`, matching the attribute
name case-insensitively (flag `re.IGNORECASE`)? -/
def hrefEqAt : List Char → Bool
  | a :: b :: c :: d :: e :: _ =>
    a.toLower = 'h' && b.toLower = 'r' && c.toLower = 'e' && d.toLower = 'f' && e = '='
  | _ => false

/-- Left-to-right non-overlapping scan of
`re.findall(r'href=[quote]([^quotes]+)[quote]', html, flags=re.IGNORECASE)`:
at each position try to match `href=` then an opening quote, then a
non-empty run of characters that are not quotes of either kind, then any
quote character (the regex does not require it to equal the opening one);
on success capture the run and resume after the closing quote, otherwise
advance one character. -/
def scanHrefsGo : Nat → List Char → List String
  | 0, _ => []
  | _ + 1, [] => []
  | fuel + 1, c :: rest =>
    if hrefEqAt (c :: rest) then
      match (c :: rest).drop 5 with
      | q1 :: afterQ1 =>
        if isQuoteChar q1 then
          let captured := afterQ1.takeWhile (fun ch => ¬ isQuoteChar ch)
          match afterQ1.drop captured.length with
          | q2 :: afterQ2 =>
            if captured ≠ [] ∧ isQuoteChar q2 then
              String.mk captured :: scanHrefsGo fuel afterQ2
            else scanHrefsGo fuel rest
          | [] => scanHrefsGo fuel rest
        else scanHrefsGo fuel rest
      | [] => scanHrefsGo fuel rest
    else scanHrefsGo fuel rest

/-- All captures of the `href` regex over the HTML text, in order of
appearance. -/
def scanHrefs (html : String) : List String :=
  scanHrefsGo html.data.length html.data

/-- The absolute `http(s)` test of the extraction loop:
`h.startswith("http://") or h.startswith("https://")`. -/
def httpAbs (s : String) : Bool :=
  pyStartsWith "http://" s || pyStartsWith "https://" s

/-- The accumulation loop of `_extract_links`: strip each capture, keep
only absolute `http(s)` values, skip values already seen, append the
rest. -/
def extract_links_loop : List String → List String → List String
  | [], _ => []
  | h :: t, seen =>
    if ¬ httpAbs (pyStrip h) then extract_links_loop t seen
    else if seen.contains (pyStrip h) then extract_links_loop t seen
    else pyStrip h :: extract_links_loop t (pyStrip h :: seen)

/-- `_extract_links`: regex scan, then the strip / absolute-only /
first-occurrence-dedup loop. -/
def extract_links (html : String) : List String :=
  extract_links_loop (scanHrefs html) []

/-- The candidate-link set exactly as `verify` computes it:
`self._extract_links(article_html)[:12]`. -/
def extract_links_capped (html : String) : List String :=
  (extract_links html).take 12

/-- The href scan as the spec describes it in words: capture the quoted
value up to the quote MATCHING the opening one (the value may contain the
other quote character), and require the closing quote to equal the
opening quote.  Stated only to compare with the scan the code performs. -/
def scanHrefsSpecGo : Nat → List Char → List String
  | 0, _ => []
  | _ + 1, [] => []
  | fuel + 1, c :: rest =>
    if hrefEqAt (c :: rest) then
      match (c :: rest).drop 5 with
      | q1 :: afterQ1 =>
        if isQuoteChar q1 then
          let captured := afterQ1.takeWhile (fun ch => ch ≠ q1)
          match afterQ1.drop captured.length with
          | q2 :: afterQ2 =>
            if captured ≠ [] ∧ q2 = q1 then
              String.mk captured :: scanHrefsSpecGo fuel afterQ2
            else scanHrefsSpecGo fuel rest
          | [] => scanHrefsSpecGo fuel rest
        else scanHrefsSpecGo fuel rest
      | [] => scanHrefsSpecGo fuel rest
    else scanHrefsSpecGo fuel rest

/-- Link extraction with the spec-worded (matching-quote) scan in place of
the regex scan; the downstream loop is unchanged. -/
def extract_links_spec (html : String) : List String :=
  extract_links_loop (scanHrefsSpecGo html.data.length html.data) []

/-! ### `_validate_result_json` -/

/-- Python `k in obj` for a string `k` against a parsed JSON value: key
membership for a dict, element equality for a list, substring test for a
string, and a `TypeError` for the remaining (non-iterable) values. -/
def pyIn (k : String) : Json → Except PyErr Bool
  | .obj kvs => .ok (kvs.any (fun kv => kv.1 == k))
  | .arr es => .ok (es.any (fun e => match e with | .str s => s == k | _ => false))
  | .str s => .ok (pyContains k s)
  | _ => .error .typeError

/-- Python `obj[k]` for a string key: dict lookup; every other value
raises a `TypeError` (list and string demand integer indices). -/
def pyGet (j : Json) (k : String) : Except PyErr Json :=
  match j with
  | .obj kvs =>
    match kvs.lookup k with
    | some v => .ok v
    | none => .error .typeError
  | _ => .error .typeError

/-- The required-keys loop: `for k in [...]: if k not in obj: raise
ValueError(f"Missing key: {k}")`.  A `TypeError` raised by `in` itself
propagates. -/
def checkRequiredKeys : List String → Json → Except PyErr Unit
  | [], _ => .ok ()
  | k :: rest, obj =>
    match pyIn k obj with
    | .error e => .error e
    | .ok false => .error (.valueError ("Missing key: " ++ k))
    | .ok true => checkRequiredKeys rest obj

/-- The four required top-level keys, in check order. -/
def requiredKeys : List String :=
  ["verdict", "explanation", "sources", "key_claims"]

/-- `verdict not in ["True", "False", "Misleading", "Not enough data"]`
(Python equality of an arbitrary value with these strings holds only for
the equal string). -/
def verdictOk (j : Json) : Bool :=
  match j with
  | .str s => s == "True" || s == "False" || s == "Misleading" || s == "Not enough data"
  | _ => false

/-- The explanation gate: a string of length 1..1200. -/
def explanationOk (j : Json) : Bool :=
  match j with
  | .str s => decide (s.length ≠ 0) && decide (s.length ≤ 1200)
  | _ => false

/-- Does the member list of a source object contain the key? -/
def listHasKey (kvs : List (String × Json)) (k : String) : Bool :=
  kvs.any (fun kv => kv.1 == k)

/-- Membership in `allowed = set(candidate_links); allowed.add(input_url)`:
exact string equality against a candidate link or the input URL. -/
def srcAllowed (u input_url : String) (candidate_links : List String) : Bool :=
  candidate_links.contains u || u == input_url

/-- The body of the per-source loop of `_validate_result_json`: the element
must be a dict, contain `url` and `note`, have a string `url` with an
`http(s)` scheme, and the `url` must be in the allow set. -/
def checkSource (s : Json) (input_url : String) (candidate_links : List String) : Except PyErr Unit :=
  match s with
  | .obj kvs =>
    if ¬ (listHasKey kvs "url" && listHasKey kvs "note") then
      .error (.valueError "Each source must have url and note")
    else
      match kvs.lookup "url" with
      | some (.str u) =>
        if ¬ (pyStartsWith "http://" u || pyStartsWith "https://" u) then
          .error (.valueError "Source url must be http(s)")
        else if ¬ srcAllowed u input_url candidate_links then
          .error (.valueError "Source url not in candidate_links (or input url)")
        else .ok ()
      | some _ => .error (.valueError "Source url must be http(s)")
      | none => .error .typeError
  | _ => .error (.valueError "Each source must be an object")

/-- The per-source loop: first failure aborts. -/
def checkSources : List Json → String → List String → Except PyErr Unit
  | [], _, _ => .ok ()
  | s :: rest, iu, links =>
    match checkSource s iu links with
    | .error e => .error e
    | .ok () => checkSources rest iu links

/-- One key-claim gate: a string of length 1..240. -/
def claimOk (c : Json) : Bool :=
  match c with
  | .str s => decide (s.length ≠ 0) && decide (s.length ≤ 240)
  | _ => false

/-- The key-claims loop: first failure aborts. -/
def checkClaims : List Json → Except PyErr Unit
  | [] => .ok ()
  | c :: rest => if claimOk c then checkClaims rest else .error (.valueError "Invalid claim string")

/-- `_validate_result_json` after `json.loads`: the gate sequence on the
parsed value, ending in the canonical `json.dumps` re-serialization. -/
def validate_result_json_obj (obj : Json) (input_url : String) (candidate_links : List String) :
    Except PyErr String :=
  match checkRequiredKeys requiredKeys obj with
  | .error e => .error e
  | .ok () =>
    match pyGet obj "verdict" with
    | .error e => .error e
    | .ok verdict =>
      if ¬ verdictOk verdict then .error (.valueError "Invalid verdict")
      else
        match pyGet obj "explanation" with
        | .error e => .error e
        | .ok explanation =>
          if ¬ explanationOk explanation then .error (.valueError "Invalid explanation")
          else
            match pyGet obj "sources" with
            | .error e => .error e
            | .ok sources =>
              match sources with
              | .arr srcs =>
                if srcs.length > 5 then .error (.valueError "Invalid sources array")
                else
                  match checkSources srcs input_url candidate_links with
                  | .error e => .error e
                  | .ok () =>
                    match pyGet obj "key_claims" with
                    | .error e => .error e
                    | .ok claims =>
                      match claims with
                      | .arr cs =>
                        if cs.length > 5 then .error (.valueError "Invalid key_claims")
                        else
                          match checkClaims cs with
                          | .error e => .error e
                          | .ok () => .ok (dumps obj)
                      | _ => .error (.valueError "Invalid key_claims")
              | _ => .error (.valueError "Invalid sources array")

/-- `_validate_result_json`: parse the raw payload (a parse failure is
wrapped in a `ValueError`; Python appends the decoder's detail to the
message), then run the gates. -/
def validate_result_json (result_json input_url : String) (candidate_links : List String) :
    Except PyErr String :=
  match loads result_json with
  | none => .error (.valueError "LLM output is not valid JSON")
  | some obj => validate_result_json_obj obj input_url candidate_links

/-! ### The contract state and `verify` -/

/-- The contract's storage fields: `results : TreeMap[str, str]` (modelled
as an association list with update-in-place insertion), `last_url`,
`last_result`. -/
structure CState where
  results : List (String × String)
  last_url : String
  last_result : String
deriving DecidableEq

/-- `self.results[url] = validated`: overwrite an existing key, append a
new one. -/
def tmSet (m : List (String × String)) (k v : String) : List (String × String) :=
  match m with
  | [] => [(k, v)]
  | (k', v') :: t => if k' == k then (k', v) :: t else (k', v') :: tmSet t k v

/-- `verify(url)`: normalize and check the URL, extract the capped
candidate links from the fetched HTML, validate the judge payload, and on
success write the three storage fields.  The fetched HTML and the
LLM-consensus payload are external collaborator outputs and enter as
oracle parameters (the prompt built from the article text only feeds that
external call).  The returned pair is the post-state and the
result-or-exception. -/
def verify (st : CState) (url article_html result_json : String) :
    CState × Except PyErr String :=
  let u := normalize_url url
  match basic_url_guardrails u with
  | .error e => (st, .error e)
  | .ok () =>
    let candidate_links := extract_links_capped article_html
    match validate_result_json result_json u candidate_links with
    | .error e => (st, .error e)
    | .ok validated => (⟨tmSet st.results u validated, u, validated⟩, .ok validated)

/-! ### Auxiliary notions used by the theorems -/

/-- Is the exception an explicitly raised `ValueError` (as opposed to a
`TypeError` coming from a Python primitive)? -/
def PyErr.isValueError : PyErr → Bool
  | .valueError _ => true
  | .typeError => false

/-- First-occurrence deduplication, written declaratively: keep the head
and deduplicate the tail purged of the head. -/
def firstDedup : List String → List String
  | [] => []
  | x :: t => x :: firstDedup (t.filter (fun y => y ≠ x))
termination_by l => l.length
decreasing_by
  simp only [List.length_cons]
  exact Nat.lt_succ_of_le (List.length_filter_le _ _)

/-! ### Concrete inputs used by witnesses and counterexamples -/

/-- A normalized input URL used by the concrete scenarios. -/
def inputUrl0 : String := "https://example.com/a"

/-- A canonical (already minified) well-formed payload. -/
def sMin : String := "\x7b\"verdict\":\"True\",\"explanation\":\"e\",\"sources\":[],\"key_claims\":[]\x7d"

/-- The same object content as `sMin` with the first two keys in the other
order. -/
def sKO : String := "\x7b\"explanation\":\"e\",\"verdict\":\"True\",\"sources\":[],\"key_claims\":[]\x7d"

/-- The same document as `sMin` with incidental whitespace inserted. -/
def sWs : String := "\x7b \"verdict\" : \"True\" ,\n \"explanation\" : \"e\" , \"sources\" : [ ] , \"key_claims\" : [ ] \x7d"

/-- The same document as `sMin` with the `T` of `True` written as the
escape `\\u0054`. -/
def sEsc : String := "\x7b\"verdict\":\"\\u0054rue\",\"explanation\":\"e\",\"sources\":[],\"key_claims\":[]\x7d"

/-- The parsed member list of `sMin`. -/
def kvsMin : List (String × Json) :=
  [("verdict", Json.str "True"), ("explanation", Json.str "e"),
   ("sources", Json.arr []), ("key_claims", Json.arr [])]

/-- The parsed member list of `sKO`. -/
def kvsKO : List (String × Json) :=
  [("explanation", Json.str "e"), ("verdict", Json.str "True"),
   ("sources", Json.arr []), ("key_claims", Json.arr [])]

/-- A payload whose single source has the number `5` as its `note`. -/
def sNote5 : String := "\x7b\"verdict\":\"True\",\"explanation\":\"e\",\"sources\":[\x7b\"url\":\"https://example.com/a\",\"note\":5\x7d],\"key_claims\":[]\x7d"

/-- A payload with the four required keys plus an additional top-level
key `extra`. -/
def sExtra : String := "\x7b\"verdict\":\"True\",\"explanation\":\"e\",\"sources\":[],\"key_claims\":[],\"extra\":\x7b\"z\":[1,true,null]\x7d\x7d"

/-- A payload value with a given explanation and the other fields fixed
valid. -/
def payloadE (e : String) : Json :=
  .obj [("verdict", .str "True"), ("explanation", .str e),
        ("sources", .arr []), ("key_claims", .arr [])]

/-- The string `aa...a` of a given length. -/
def strN (n : Nat) : String := ⟨List.replicate n 'a'⟩

/-- A source element `(url, note)` as a JSON object. -/
def srcObj (u : String) (note : Json) : Json :=
  .obj [("url", .str u), ("note", note)]

/-- A payload value with a given source list and the other fields fixed
valid. -/
def payloadS (srcs : List Json) : Json :=
  .obj [("verdict", .str "True"), ("explanation", .str "e"),
        ("sources", .arr srcs), ("key_claims", .arr [])]

/-- HTML whose single href opens with a double quote and is closed by a
single quote, the value containing that single quote: the regex stops the
capture at the first quote of either kind. -/
def htmlMixedQuotes : String := "<a href=\"http://a/b" ++ sq ++ "c\">"

/-- The HTML scenario of the spec's test list: a single-quoted link, an
upper-case `HREF` double-quoted link, an unquoted (malformed) link, and a
duplicate. -/
def htmlAttrs : String :=
  "<a href=" ++ sq ++ "http://a" ++ sq ++ "><a HREF=\"http://b\"><a href=http://c><a href=\"http://a\">"

/-- HTML holding 20 distinct absolute links. -/
def html20 : String := "<a href=\"http://l01.example/x\"><a href=\"http://l02.example/x\"><a href=\"http://l03.example/x\"><a href=\"http://l04.example/x\"><a href=\"http://l05.example/x\"><a href=\"http://l06.example/x\"><a href=\"http://l07.example/x\"><a href=\"http://l08.example/x\"><a href=\"http://l09.example/x\"><a href=\"http://l10.example/x\"><a href=\"http://l11.example/x\"><a href=\"http://l12.example/x\"><a href=\"http://l13.example/x\"><a href=\"http://l14.example/x\"><a href=\"http://l15.example/x\"><a href=\"http://l16.example/x\"><a href=\"http://l17.example/x\"><a href=\"http://l18.example/x\"><a href=\"http://l19.example/x\"><a href=\"http://l20.example/x\">"

/-! ### Helper lemmas -/

/-- The suffix-scanning substring test agrees with list-infix. -/
theorem subListIn_iff (n h : List Char) : subListIn n h = true ↔ n <:+: h := by
  induction h with
  | nil =>
    simp [subListIn, List.isPrefixOf_iff_prefix]
  | cons c t ih =>
    simp only [subListIn, Bool.or_eq_true, List.isPrefixOf_iff_prefix, ih]
    exact List.infix_cons_iff.symm

/-- Python substring containment agrees with infix on the character
lists. -/
theorem pyContains_iff (needle hay : String) :
    pyContains needle hay = true ↔ needle.data <:+: hay.data :=
  subListIn_iff needle.data hay.data

/-- Python `startswith` agrees with list-prefix on the character lists. -/
theorem pyStartsWith_iff (p s : String) :
    pyStartsWith p s = true ↔ p.data <+: s.data := by
  simp [pyStartsWith]

/-! ### Claim theorems -/

/-- C10: the validated schema is open at the top level: a payload with the
four required keys plus an additional top-level key `extra` validates, and
the canonical output re-serializes the whole parsed object — here the
input is already minified, so the output is byte-identical to it and still
contains the extra key and its value. -/
theorem validate_extra_keys_preserved :
    loads sExtra = some (.obj [("verdict", .str "True"), ("explanation", .str "e"),
      ("sources", .arr []), ("key_claims", .arr []),
      ("extra", .obj [("z", .arr [.num "1", .bool true, .null])])])
    ∧ validate_result_json sExtra inputUrl0 [] = .ok sExtra
    ∧ pyContains "\"extra\"" sExtra = true
    ∧ pyContains "true" sExtra = true :=
  ⟨rfl, rfl, rfl, rfl⟩

set_option maxRecDepth 100000 in
/-- C5: the candidate-link sequence `verify` computes
(`_extract_links(html)[:12]`) has at most 12 entries for every HTML input,
and on HTML with 20 distinct absolute links it is exactly the first 12 in
appearance order (the uncapped extraction finds all 20). -/
theorem extract_links_cap12 :
    (∀ html : String, (extract_links_capped html).length ≤ 12)
    ∧ extract_links_capped html20 =
      ["http://l01.example/x", "http://l02.example/x", "http://l03.example/x",
       "http://l04.example/x", "http://l05.example/x", "http://l06.example/x",
       "http://l07.example/x", "http://l08.example/x", "http://l09.example/x",
       "http://l10.example/x", "http://l11.example/x", "http://l12.example/x"]
    ∧ (extract_links html20).length = 20 := by
  refine ⟨fun html => ?_, by rfl, by rfl⟩
  simp only [extract_links_capped, List.length_take]
  exact min_le_left _ _

/-- C5 (witness): the length bound applied to the concrete 20-link
input. -/
theorem extract_links_cap12_witness :
    (extract_links_capped html20).length ≤ 12 :=
  extract_links_cap12.1 html20

/-- C1 (counterexample): two payloads that parse to the same JSON object
content (the member lists are permutations of one another) but list the
keys in different orders both validate, yet the canonical outputs differ:
`json.dumps` keeps each input's own key order. -/
theorem validate_keyorder_counterexample :
    loads sMin = some (.obj kvsMin)
    ∧ loads sKO = some (.obj kvsKO)
    ∧ kvsMin.Perm kvsKO
    ∧ kvsMin ≠ kvsKO
    ∧ validate_result_json sMin inputUrl0 [] = .ok sMin
    ∧ validate_result_json sKO inputUrl0 [] = .ok sKO
    ∧ sMin ≠ sKO := by
  refine ⟨rfl, rfl, List.Perm.swap _ _ _, ?_, rfl, rfl, by decide⟩
  intro h
  injection h with h1 _
  injection h1 with hk _
  exact absurd hk (by decide)

/-- C1 (amended): the validator's result is a function of the parsed value
alone, so payloads with identical parses — in particular re-runs on the
same payload, and payloads differing only in incidental whitespace or in
escaping — give byte-identical canonical output; key order, however, is
preserved from the input (see the counterexample). -/
theorem validate_canonical_of_same_parse :
    (∀ (p1 p2 iu : String) (links : List String), loads p1 = loads p2 →
        validate_result_json p1 iu links = validate_result_json p2 iu links)
    ∧ validate_result_json sMin inputUrl0 [] = .ok sMin
    ∧ validate_result_json sWs inputUrl0 [] = .ok sMin
    ∧ validate_result_json sEsc inputUrl0 [] = .ok sMin := by
  refine ⟨fun p1 p2 iu links h => ?_, rfl, rfl, rfl⟩
  simp only [validate_result_json, h]

/-- C1 (witness): the whitespace and escaping variants of the canonical
payload parse identically to it, and the determinism theorem applied there
yields byte-identical validator output. -/
theorem validate_canonical_of_same_parse_witness :
    loads sWs = loads sMin
    ∧ loads sEsc = loads sMin
    ∧ validate_result_json sWs inputUrl0 [] = validate_result_json sMin inputUrl0 []
    ∧ validate_result_json sEsc inputUrl0 [] = validate_result_json sMin inputUrl0 [] :=
  ⟨rfl, rfl, validate_canonical_of_same_parse.1 sWs sMin inputUrl0 [] rfl,
    validate_canonical_of_same_parse.1 sEsc sMin inputUrl0 [] rfl⟩

/-- C2 (counterexample): on the payload `5` — valid JSON whose top-level
value is not an object — the validator raises a `TypeError` (Python's
`"verdict" in 5`), not a `ValidationError` naming a missing key. -/
theorem validate_toplevel_number_typeerror :
    validate_result_json "5" inputUrl0 [] = .error .typeError
    ∧ PyErr.typeError.isValueError = false :=
  ⟨rfl, rfl⟩

/-- C2 (amended): a payload parsing to a non-object top-level value is
never accepted; arrays and strings that lack a required key name (as
element resp. substring) fail with the `Missing key` `ValueError`, but
numbers, booleans and null make the `in` test itself raise a `TypeError`,
which escapes instead of a `ValidationError`. -/
theorem validate_nonobject_never_ok :
    (∀ (j : Json) (iu : String) (links : List String), (∀ kvs, j ≠ Json.obj kvs) →
        (validate_result_json_obj j iu links).isOk = false)
    ∧ validate_result_json "[]" inputUrl0 [] = .error (.valueError "Missing key: verdict")
    ∧ validate_result_json "\"no keys here\"" inputUrl0 [] = .error (.valueError "Missing key: verdict")
    ∧ validate_result_json "true" inputUrl0 [] = .error .typeError
    ∧ validate_result_json "null" inputUrl0 [] = .error .typeError
    ∧ validate_result_json "[\"verdict\",\"explanation\",\"sources\",\"key_claims\"]" inputUrl0 []
        = .error .typeError := by
  refine ⟨fun j iu links hne => ?_, rfl, rfl, rfl, rfl, rfl⟩
  cases j with
  | null => rfl
  | bool b => rfl
  | num tok => rfl
  | obj kvs => exact absurd rfl (hne kvs)
  | str s =>
    unfold validate_result_json_obj
    cases h : checkRequiredKeys requiredKeys (.str s) with
    | error e => simp [h, Except.isOk, Except.toBool]
    | ok u => cases u; simp [h, pyGet, Except.isOk, Except.toBool]
  | arr es =>
    unfold validate_result_json_obj
    cases h : checkRequiredKeys requiredKeys (.arr es) with
    | error e => simp [h, Except.isOk, Except.toBool]
    | ok u => cases u; simp [h, pyGet, Except.isOk, Except.toBool]

/-- C2 (witness): the general part applied to the number payload `5`. -/
theorem validate_nonobject_never_ok_witness :
    (validate_result_json_obj (Json.num "5") inputUrl0 []).isOk = false :=
  validate_nonobject_never_ok.1 (Json.num "5") inputUrl0 []
    (fun _ h => Json.noConfusion h)

/-- C4: the URL gate (strip, then guardrails) accepts exactly the stripped
strings that have length at least 8, start with the case-sensitive prefix
`http://` or `https://`, and whose lowercase form contains none of
`localhost`, `127.0.0.1`, `0.0.0.0` as a substring anywhere; on acceptance
the stripped string itself is returned, and every rejection is a
`ValueError`. -/
theorem url_guardrail_characterization (raw : String) :
    (normalize_and_check raw = .ok (pyStrip raw) ↔
      ¬ ((pyStrip raw).length < 8
        ∨ ¬ ("http://".data <+: (pyStrip raw).data ∨ "https://".data <+: (pyStrip raw).data)
        ∨ "localhost".data <:+: (pyLower (pyStrip raw)).data
        ∨ "127.0.0.1".data <:+: (pyLower (pyStrip raw)).data
        ∨ "0.0.0.0".data <:+: (pyLower (pyStrip raw)).data))
    ∧ (normalize_and_check raw = .ok (pyStrip raw)
        ∨ ∃ m, normalize_and_check raw = .error (.valueError m)) := by
  have hp : (pyStartsWith "http://" (pyStrip raw) || pyStartsWith "https://" (pyStrip raw)) = true
      ↔ ("http://".data <+: (pyStrip raw).data ∨ "https://".data <+: (pyStrip raw).data) := by
    simp [pyStartsWith]
  have hc1 := pyContains_iff "localhost" (pyLower (pyStrip raw))
  have hc2 := pyContains_iff "127.0.0.1" (pyLower (pyStrip raw))
  have hc3 := pyContains_iff "0.0.0.0" (pyLower (pyStrip raw))
  unfold normalize_and_check normalize_url basic_url_guardrails
  by_cases h1 : (pyStrip raw).length < 8
  · rw [if_pos h1]
    refine ⟨⟨fun h => absurd h (by simp), fun hn => (hn (Or.inl h1)).elim⟩, Or.inr ⟨_, rfl⟩⟩
  · rw [if_neg h1]
    by_cases h2 : (pyStartsWith "http://" (pyStrip raw) || pyStartsWith "https://" (pyStrip raw)) = true
    · rw [if_neg (not_not_intro h2)]
      by_cases h3 : (pyContains "localhost" (pyLower (pyStrip raw))
          || pyContains "127.0.0.1" (pyLower (pyStrip raw))
          || pyContains "0.0.0.0" (pyLower (pyStrip raw))) = true
      · rw [if_pos h3]
        have hC : ((pyStrip raw).length < 8
            ∨ ¬ ("http://".data <+: (pyStrip raw).data ∨ "https://".data <+: (pyStrip raw).data)
            ∨ "localhost".data <:+: (pyLower (pyStrip raw)).data
            ∨ "127.0.0.1".data <:+: (pyLower (pyStrip raw)).data
            ∨ "0.0.0.0".data <:+: (pyLower (pyStrip raw)).data) := by
          simp only [Bool.or_eq_true, hc1, hc2, hc3] at h3
          tauto
        refine ⟨⟨fun h => absurd h (by simp), fun hn => (hn hC).elim⟩, Or.inr ⟨_, rfl⟩⟩
      · rw [if_neg h3]
        have hnC : ¬ ((pyStrip raw).length < 8
            ∨ ¬ ("http://".data <+: (pyStrip raw).data ∨ "https://".data <+: (pyStrip raw).data)
            ∨ "localhost".data <:+: (pyLower (pyStrip raw)).data
            ∨ "127.0.0.1".data <:+: (pyLower (pyStrip raw)).data
            ∨ "0.0.0.0".data <:+: (pyLower (pyStrip raw)).data) := by
          rw [hp] at h2
          simp only [Bool.or_eq_true, hc1, hc2, hc3] at h3
          push_neg at h3
          rintro (h | h | h | h | h)
          · exact h1 h
          · exact h h2
          · exact h3.1.1 h
          · exact h3.1.2 h
          · exact h3.2 h
        exact ⟨⟨fun _ => hnC, fun _ => rfl⟩, Or.inl rfl⟩
    · rw [if_pos h2]
      have hC : ((pyStrip raw).length < 8
          ∨ ¬ ("http://".data <+: (pyStrip raw).data ∨ "https://".data <+: (pyStrip raw).data)
          ∨ "localhost".data <:+: (pyLower (pyStrip raw)).data
          ∨ "127.0.0.1".data <:+: (pyLower (pyStrip raw)).data
          ∨ "0.0.0.0".data <:+: (pyLower (pyStrip raw)).data) := by
        rw [hp] at h2
        exact Or.inr (Or.inl h2)
      refine ⟨⟨fun h => absurd h (by simp), fun hn => (hn hC).elim⟩, Or.inr ⟨_, rfl⟩⟩

/-- C4 (witness): the characterization applied to a concrete good URL with
surrounding whitespace, and to a URL with `localhost` in the path. -/
theorem url_guardrail_characterization_witness :
    normalize_and_check "  https://ok.example/x " = .ok "https://ok.example/x"
    ∧ normalize_and_check "https://evil.com/localhost-news" ≠ .ok "https://evil.com/localhost-news" := by
  constructor
  · exact (url_guardrail_characterization "  https://ok.example/x ").1.mpr (by decide)
  · intro h
    exact absurd ((url_guardrail_characterization "https://evil.com/localhost-news").1.mp h)
      (by decide)

/-- C7: if any guardrail or validation step of `verify` fails, the
contract state (the results map, `last_url` and `last_result`) is exactly
what it was before the call: the three storage writes only happen after
validation succeeds. -/
theorem verify_atomic_on_error (st : CState) (url article_html result_json : String)
    (e : PyErr) (h : (verify st url article_html result_json).2 = .error e) :
    (verify st url article_html result_json).1 = st := by
  unfold verify at h ⊢
  cases hg : basic_url_guardrails (normalize_url url) with
  | error e' => simp [hg]
  | ok u =>
    cases u
    cases hv : validate_result_json result_json (normalize_url url)
        (extract_links_capped article_html) with
    | error e' => simp [hg, hv]
    | ok v => simp [hg, hv] at h

/-- C7 (witness): a call failing the guardrail (localhost URL) leaves a
concrete non-empty state untouched. -/
theorem verify_atomic_on_error_witness :
    (verify ⟨[("https://kept.example/x", "r0")], "https://kept.example/x", "r0"⟩
        "http://localhost/x" "" "").1
      = ⟨[("https://kept.example/x", "r0")], "https://kept.example/x", "r0"⟩ :=
  verify_atomic_on_error _ _ _ _ (.valueError "Localhost URLs are not allowed") rfl

set_option maxRecDepth 400000 in
/-- C9: the explanation gate accepts exactly strings whose length lies in
`[1, 1200]`; through the whole validator (all other fields valid), length
0 and length 1201 are rejected with `ValueError("Invalid explanation")`
while lengths 1 and 1200 are accepted. -/
theorem explanation_bounds :
    (∀ j : Json, explanationOk j = true ↔ ∃ s, j = Json.str s ∧ 1 ≤ s.length ∧ s.length ≤ 1200)
    ∧ validate_result_json_obj (payloadE (strN 0)) inputUrl0 [] = .error (.valueError "Invalid explanation")
    ∧ (validate_result_json_obj (payloadE (strN 1)) inputUrl0 []).isOk = true
    ∧ (validate_result_json_obj (payloadE (strN 1200)) inputUrl0 []).isOk = true
    ∧ validate_result_json_obj (payloadE (strN 1201)) inputUrl0 [] = .error (.valueError "Invalid explanation") := by
  refine ⟨fun j => ?_, rfl, rfl, rfl, rfl⟩
  cases j with
  | str s =>
    simp only [explanationOk, Bool.and_eq_true, decide_eq_true_eq, Json.str.injEq]
    constructor
    · rintro ⟨hne, hle⟩
      exact ⟨s, rfl, by omega, hle⟩
    · rintro ⟨s', hs, h1, h2⟩
      cases hs
      exact ⟨by omega, h2⟩
  | null => simp [explanationOk]
  | bool b => simp [explanationOk]
  | num tok => simp [explanationOk]
  | arr es => simp [explanationOk]
  | obj kvs => simp [explanationOk]

/-- C9 (witness): the gate characterization applied to a concrete
two-character explanation. -/
theorem explanation_bounds_witness :
    explanationOk (Json.str "ok") = true :=
  (explanation_bounds.1 (Json.str "ok")).mpr ⟨"ok", rfl, by decide, by decide⟩

/-- The extraction loop with a seen-set equals declarative
first-occurrence deduplication of the stripped, absolute-only captures not
yet seen. -/
theorem extract_links_loop_eq (l : List String) (seen : List String) :
    extract_links_loop l seen
      = firstDedup ((l.map pyStrip).filter (fun x => httpAbs x && !(seen.contains x))) := by
  induction l generalizing seen with
  | nil => simp [extract_links_loop, firstDedup]
  | cons h t ih =>
    by_cases h1 : httpAbs (pyStrip h) = true
    · by_cases h2 : seen.contains (pyStrip h) = true
      · have hcond : (httpAbs (pyStrip h) && !(seen.contains (pyStrip h))) = false := by
          rw [h2]; simp
        simp only [extract_links_loop, List.map_cons, List.filter_cons, hcond]
        rw [if_neg (not_not_intro h1), if_pos h2]
        simp only [Bool.false_eq_true, if_false]
        exact ih seen
      · have hcond : (httpAbs (pyStrip h) && !(seen.contains (pyStrip h))) = true := by
          rw [h1, Bool.eq_false_iff.mpr h2]
          rfl
        simp only [extract_links_loop, List.map_cons, List.filter_cons, hcond]
        rw [if_neg (not_not_intro h1), if_neg h2]
        simp only [if_true]
        rw [firstDedup]
        congr 1
        rw [ih (pyStrip h :: seen)]
        congr 1
        rw [List.filter_filter]
        apply List.filter_congr
        intro x _
        by_cases hx : x = pyStrip h
        · subst hx
          simp [List.contains_cons]
        · have hbe : (x == pyStrip h) = false := beq_eq_false_iff_ne.mpr hx
          simp [List.contains_cons, hbe, hx]
    · have hcond : (httpAbs (pyStrip h) && !(seen.contains (pyStrip h))) = false := by
        rw [Bool.eq_false_iff.mpr h1]
        rfl
      simp only [extract_links_loop, List.map_cons, List.filter_cons, hcond]
      rw [if_pos h1]
      simp only [Bool.false_eq_true, if_false]
      exact ih seen

/-- Every element of the extraction loop's output is an absolute
`http(s)` URL, is not in the seen set, and is the strip of one of the
captures. -/
theorem extract_links_loop_mem (l : List String) :
    ∀ (seen : List String) (x : String), x ∈ extract_links_loop l seen →
      httpAbs x = true ∧ seen.contains x = false ∧ ∃ h ∈ l, x = pyStrip h := by
  induction l with
  | nil =>
    intro seen x hx
    simp [extract_links_loop] at hx
  | cons h t ih =>
    intro seen x hx
    simp only [extract_links_loop] at hx
    by_cases h1 : httpAbs (pyStrip h) = true
    · rw [if_neg (not_not_intro h1)] at hx
      by_cases h2 : seen.contains (pyStrip h) = true
      · rw [if_pos h2] at hx
        obtain ⟨ha, hb, hcap, hmem, heq⟩ := ih seen x hx
        exact ⟨ha, hb, hcap, List.mem_cons_of_mem _ hmem, heq⟩
      · rw [if_neg h2] at hx
        rcases List.mem_cons.mp hx with hx | hx
        · subst hx
          exact ⟨h1, by simpa using h2, h, List.mem_cons_self _ _, rfl⟩
        · obtain ⟨ha, hb, hcap, hmem, heq⟩ := ih (pyStrip h :: seen) x hx
          rw [List.contains_cons, Bool.or_eq_false_iff] at hb
          exact ⟨ha, hb.2, hcap, List.mem_cons_of_mem _ hmem, heq⟩
    · rw [if_pos h1] at hx
      obtain ⟨ha, hb, hcap, hmem, heq⟩ := ih seen x hx
      exact ⟨ha, hb, hcap, List.mem_cons_of_mem _ hmem, heq⟩

/-- The extraction loop never produces duplicates. -/
theorem extract_links_loop_nodup (l : List String) :
    ∀ seen : List String, (extract_links_loop l seen).Nodup := by
  induction l with
  | nil => intro seen; simp [extract_links_loop]
  | cons h t ih =>
    intro seen
    simp only [extract_links_loop]
    by_cases h1 : httpAbs (pyStrip h) = true
    · rw [if_neg (not_not_intro h1)]
      by_cases h2 : seen.contains (pyStrip h) = true
      · rw [if_pos h2]; exact ih seen
      · rw [if_neg h2]
        refine List.nodup_cons.mpr ⟨?_, ih _⟩
        intro hmem
        obtain ⟨_, hb, _⟩ := extract_links_loop_mem t _ _ hmem
        rw [List.contains_cons] at hb
        simp at hb
    · rw [if_pos h1]; exact ih seen

/-- C6 (amended): `_extract_links` scans `href=` attribute patterns
case-insensitively on the attribute name, captures the quoted value up to
the NEXT quote character of either kind (the closing quote need not match
the opening one — see the counterexample), strips each captured value,
keeps only values starting with `http://` or `https://`, drops
exact-string duplicates keeping first occurrences, and ignores unquoted
`href` attributes: the output equals the declarative
strip-filter-first-dedup pipeline over the scan, has no duplicates, and
every element is the strip of a capture and is absolute `http(s)`. -/
theorem extract_links_pipeline :
    (∀ html : String,
        extract_links html = firstDedup (((scanHrefs html).map pyStrip).filter httpAbs))
    ∧ (∀ html : String, (extract_links html).Nodup)
    ∧ (∀ html x : String, x ∈ extract_links html →
        httpAbs x = true ∧ ∃ h ∈ scanHrefs html, x = pyStrip h)
    ∧ extract_links htmlAttrs = ["http://a", "http://b"] := by
  refine ⟨fun html => ?_, fun html => extract_links_loop_nodup _ [],
    fun html x hx => ?_, by rfl⟩
  · rw [extract_links, extract_links_loop_eq]
    congr 1
    apply List.filter_congr
    intro x _
    simp
  · obtain ⟨ha, _, hcap⟩ := extract_links_loop_mem (scanHrefs html) [] x hx
    exact ⟨ha, hcap⟩

/-- C6 (witness): the membership part applied to the first extracted link
of the mixed-attribute example. -/
theorem extract_links_pipeline_witness :
    ("http://a" ∈ extract_links htmlAttrs)
    ∧ (httpAbs "http://a" = true ∧ ∃ h ∈ scanHrefs htmlAttrs, "http://a" = pyStrip h) :=
  ⟨by decide, extract_links_pipeline.2.2.1 htmlAttrs "http://a" (by decide)⟩

/-- C6 (counterexample): on HTML whose href value is opened with a double
quote, contains a single quote, and is closed by the double quote, the
code's regex stops the capture at the single quote and accepts it as the
closing delimiter, while the spec-worded matching-quote scan captures up
to the matching double quote: the two extractions differ. -/
theorem extract_links_quote_mismatch_counterexample :
    extract_links htmlMixedQuotes = ["http://a/b"]
    ∧ extract_links_spec htmlMixedQuotes = ["http://a/b" ++ sq ++ "c"]
    ∧ ("http://a/b" : String) ≠ "http://a/b" ++ sq ++ "c"
    ∧ scanHrefs htmlMixedQuotes = ["http://a/b"] :=
  ⟨rfl, rfl, by decide, rfl⟩

/-- C3: membership in the source allow-set is exact string equality
against the candidate links or the input URL, with no normalization; a
source whose `url` equals the input URL is accepted by the full validator
even with an empty candidate set, and a well-formed `http(s)` source `url`
that is neither the input URL nor a candidate link is always rejected with
the allow-list `ValueError`, whatever the candidate set and note are. -/
theorem sources_allowlist_membership :
    (∀ (u iu : String) (links : List String),
        srcAllowed u iu links = true ↔ (u ∈ links ∨ u = iu))
    ∧ (∀ (iu : String) (note : Json),
        (pyStartsWith "http://" iu || pyStartsWith "https://" iu) = true →
        (validate_result_json_obj (payloadS [srcObj iu note]) iu []).isOk = true)
    ∧ (∀ (u iu : String) (links : List String) (note : Json),
        (pyStartsWith "http://" u || pyStartsWith "https://" u) = true →
        u ∉ links → u ≠ iu →
        validate_result_json_obj (payloadS [srcObj u note]) iu links
          = .error (.valueError "Source url not in candidate_links (or input url)")) := by
  refine ⟨fun u iu links => ?_, fun iu note hiu => ?_, fun u iu links note hu hnl hniu => ?_⟩
  · simp [srcAllowed, List.contains_iff_exists_mem_beq, beq_iff_eq]
  · have hk : checkRequiredKeys requiredKeys (payloadS [srcObj iu note]) = .ok () := rfl
    have hv : pyGet (payloadS [srcObj iu note]) "verdict" = .ok (.str "True") := rfl
    have he : pyGet (payloadS [srcObj iu note]) "explanation" = .ok (.str "e") := rfl
    have hso : pyGet (payloadS [srcObj iu note]) "sources" = .ok (.arr [srcObj iu note]) := rfl
    have hkc : pyGet (payloadS [srcObj iu note]) "key_claims" = .ok (.arr []) := rfl
    have hhk : (listHasKey [("url", Json.str iu), ("note", note)] "url"
        && listHasKey [("url", Json.str iu), ("note", note)] "note") = true := rfl
    have hlu : List.lookup "url" [("url", Json.str iu), ("note", note)] = some (.str iu) := rfl
    have hall : srcAllowed iu iu [] = true := by
      simp [srcAllowed]
    have hsrc : checkSources [srcObj iu note] iu [] = .ok () := by
      simp [checkSources, checkSource, srcObj, hhk, hlu, hiu, hall]
    simp only [validate_result_json_obj, hk, hv, he, hso, hkc, hsrc]
    rfl
  · have hk : checkRequiredKeys requiredKeys (payloadS [srcObj u note]) = .ok () := rfl
    have hv : pyGet (payloadS [srcObj u note]) "verdict" = .ok (.str "True") := rfl
    have he : pyGet (payloadS [srcObj u note]) "explanation" = .ok (.str "e") := rfl
    have hso : pyGet (payloadS [srcObj u note]) "sources" = .ok (.arr [srcObj u note]) := rfl
    have hhk : (listHasKey [("url", Json.str u), ("note", note)] "url"
        && listHasKey [("url", Json.str u), ("note", note)] "note") = true := rfl
    have hlu : List.lookup "url" [("url", Json.str u), ("note", note)] = some (.str u) := rfl
    have hall : srcAllowed u iu links = false := by
      rw [srcAllowed, Bool.or_eq_false_iff]
      constructor
      · rw [← Bool.not_eq_true, List.contains_iff_exists_mem_beq]
        intro ⟨a, ha, hba⟩
        exact hnl (eq_of_beq hba ▸ ha)
      · exact beq_eq_false_iff_ne.mpr hniu
    have hsrc : checkSources [srcObj u note] iu links
        = .error (.valueError "Source url not in candidate_links (or input url)") := by
      simp [checkSources, checkSource, srcObj, hhk, hlu, hu, hall]
    simp only [validate_result_json_obj, hk, hv, he, hso, hsrc]
    rfl

/-- C3 (witness): the acceptance part at the concrete input URL with an
empty candidate set, and the rejection part at a concrete well-formed but
unlisted URL. -/
theorem sources_allowlist_membership_witness :
    (validate_result_json_obj (payloadS [srcObj inputUrl0 (.str "n")]) inputUrl0 []).isOk = true
    ∧ validate_result_json_obj (payloadS [srcObj "https://other.com/x" (.str "n")]) inputUrl0
        ["https://src1.com/x"]
      = .error (.valueError "Source url not in candidate_links (or input url)") :=
  ⟨sources_allowlist_membership.2.1 inputUrl0 (.str "n") rfl,
    sources_allowlist_membership.2.2 "https://other.com/x" inputUrl0 ["https://src1.com/x"]
      (.str "n") rfl (by decide) (by decide)⟩

/-- A source element that passes the per-source check is an object that
contains a `note` key and whose `url` value is an `http(s)` string in the
allow set. -/
theorem checkSource_ok_shape (s : Json) (iu : String) (links : List String)
    (h : checkSource s iu links = .ok ()) :
    ∃ skvs, s = .obj skvs ∧ listHasKey skvs "note" = true
      ∧ ∃ u, List.lookup "url" skvs = some (.str u)
        ∧ (pyStartsWith "http://" u || pyStartsWith "https://" u) = true
        ∧ srcAllowed u iu links = true := by
  cases s with
  | obj kvs =>
    refine ⟨kvs, rfl, ?_⟩
    simp only [checkSource] at h
    by_cases hk : (listHasKey kvs "url" && listHasKey kvs "note") = true
    · rw [if_neg (not_not_intro hk)] at h
      cases hlu : List.lookup "url" kvs with
      | none => rw [hlu] at h; exact absurd h (by simp)
      | some v =>
        cases v with
        | str u =>
          simp only [hlu] at h
          by_cases hpre : (pyStartsWith "http://" u || pyStartsWith "https://" u) = true
          · by_cases hall : srcAllowed u iu links = true
            · have hk' := hk
              rw [Bool.and_eq_true] at hk'
              exact ⟨hk'.2, u, rfl, hpre, hall⟩
            · rw [if_neg (not_not_intro hpre), if_pos hall] at h
              exact absurd h (by simp)
          · rw [if_pos hpre] at h
            exact absurd h (by simp)
        | null => rw [hlu] at h; exact absurd h (by simp)
        | bool b => rw [hlu] at h; exact absurd h (by simp)
        | num tok => rw [hlu] at h; exact absurd h (by simp)
        | arr es => rw [hlu] at h; exact absurd h (by simp)
        | obj kvs2 => rw [hlu] at h; exact absurd h (by simp)
    · rw [if_pos hk] at h
      exact absurd h (by simp)
  | null => exact absurd h (by simp [checkSource])
  | bool b => exact absurd h (by simp [checkSource])
  | num tok => exact absurd h (by simp [checkSource])
  | str s' => exact absurd h (by simp [checkSource])
  | arr es => exact absurd h (by simp [checkSource])

/-- If the whole per-source loop succeeds, every element passes the
per-source check. -/
theorem checkSources_ok_all : ∀ (srcs : List Json) (iu : String) (links : List String),
    checkSources srcs iu links = .ok () → ∀ s ∈ srcs, checkSource s iu links = .ok () := by
  intro srcs iu links
  induction srcs with
  | nil => intro _ s hs; cases hs
  | cons a t ih =>
    intro h s hs
    simp only [checkSources] at h
    cases ha : checkSource a iu links with
    | error e => rw [ha] at h; exact absurd h (by simp)
    | ok u =>
      cases u
      simp only [ha] at h
      rcases List.mem_cons.mp hs with rfl | hs'
      · exact ha
      · exact ih h s hs'

/-- C8 (amended): in every payload the validator accepts, each element of
`sources` is an object that contains `url` and `note` keys, the `url`
value being an `http(s)` string belonging to the allow set; the `note`
value's type, however, is never checked (see the counterexample: a
numeric note is accepted). -/
theorem accepted_sources_shape (kvs : List (String × Json)) (iu : String)
    (links : List String) (out : String) (srcs : List Json)
    (hok : validate_result_json_obj (.obj kvs) iu links = .ok out)
    (hsrcs : List.lookup "sources" kvs = some (.arr srcs)) :
    ∀ s ∈ srcs, ∃ skvs, s = .obj skvs ∧ listHasKey skvs "note" = true
      ∧ ∃ u, List.lookup "url" skvs = some (.str u)
        ∧ (pyStartsWith "http://" u || pyStartsWith "https://" u) = true
        ∧ srcAllowed u iu links = true := by
  intro s hs
  unfold validate_result_json_obj at hok
  cases h0 : checkRequiredKeys requiredKeys (Json.obj kvs) with
  | error e => rw [h0] at hok; exact absurd hok (by simp)
  | ok u0 =>
    cases u0
    simp only [h0] at hok
    cases h1 : pyGet (Json.obj kvs) "verdict" with
    | error e => rw [h1] at hok; exact absurd hok (by simp)
    | ok verdict =>
      simp only [h1] at hok
      by_cases hv : verdictOk verdict = true
      · rw [if_neg (not_not_intro hv)] at hok
        cases h2 : pyGet (Json.obj kvs) "explanation" with
        | error e => rw [h2] at hok; exact absurd hok (by simp)
        | ok expl =>
          simp only [h2] at hok
          by_cases hexp : explanationOk expl = true
          · rw [if_neg (not_not_intro hexp)] at hok
            have hg : pyGet (Json.obj kvs) "sources" = .ok (Json.arr srcs) := by
              simp [pyGet, hsrcs]
            simp only [hg] at hok
            by_cases hlen : srcs.length > 5
            · rw [if_pos hlen] at hok; exact absurd hok (by simp)
            · rw [if_neg hlen] at hok
              cases hcs : checkSources srcs iu links with
              | error e => rw [hcs] at hok; exact absurd hok (by simp)
              | ok u2 =>
                cases u2
                exact checkSource_ok_shape s iu links
                  (checkSources_ok_all srcs iu links hcs s hs)
          · rw [if_pos hexp] at hok
            exact absurd hok (by simp)
      · rw [if_pos hv] at hok
        exact absurd hok (by simp)

/-- C8 (witness): the shape theorem applied to a concrete accepted
payload with a single source citing the input URL. -/
theorem accepted_sources_shape_witness :
    ∃ skvs, srcObj inputUrl0 (Json.str "n") = .obj skvs ∧ listHasKey skvs "note" = true
      ∧ ∃ u, List.lookup "url" skvs = some (.str u)
        ∧ (pyStartsWith "http://" u || pyStartsWith "https://" u) = true
        ∧ srcAllowed u inputUrl0 [] = true :=
  accepted_sources_shape
    [("verdict", .str "True"), ("explanation", .str "e"),
     ("sources", .arr [srcObj inputUrl0 (.str "n")]), ("key_claims", .arr [])]
    inputUrl0 []
    "\x7b\"verdict\":\"True\",\"explanation\":\"e\",\"sources\":[\x7b\"url\":\"https://example.com/a\",\"note\":\"n\"\x7d],\"key_claims\":[]\x7d"
    [srcObj inputUrl0 (.str "n")] rfl rfl (srcObj inputUrl0 (.str "n")) (by simp)

/-- C8 (counterexample): a payload whose source has the number `5` as its
`note` is accepted verbatim — the `note` value is not required to be a
string, only the key must be present. -/
theorem source_note_number_accepted :
    validate_result_json sNote5 inputUrl0 [] = .ok sNote5
    ∧ loads sNote5 = some (.obj [("verdict", .str "True"), ("explanation", .str "e"),
        ("sources", .arr [.obj [("url", .str "https://example.com/a"), ("note", .num "5")]]),
        ("key_claims", .arr [])])
    ∧ Json.isStr (.num "5") = false :=
  ⟨rfl, rfl, rfl⟩

end TruthSerum
